import Mathlib

/-!
Verification of the remote-processor resource manager (rprm) protocol
engine, `drivers/rpmsg/rpmsg_resmgr.c` (indexed-manager variant): the
per-connection session state (`struct rprm`), its resource request /
release / teardown operations, the rpmsg callback `rprm_cb`, and the
manager registry (`rprm_manager_register` / `rprm_manager_unregister` /
`rprm_probe`).

Modelling conventions:
* Machine integers: ids, indexes and handles are `Nat` (they are
  non-negative and small in all executions); C `int` status values are
  `Int`, with errors returned as negative errno values exactly as the C
  returns `-EINVAL` etc.
* Memory allocation (`kzalloc`, `idr_pre_get`) is modelled as always
  succeeding; the `-ENOMEM` paths of the C code are therefore absent.
* Pointers: `struct rprm_elem::res` is always `&mgr->resources[idx]`
  for the index validated at creation, so the element stores the index
  `resIdx` instead of the pointer.  List nodes (`list_head`) become
  `List` membership; the idr becomes an association list.
* Locks (`rprm->lock`, `table_lock`) serialize the operations; the model
  presents each locked region as one atomic function.
* debugfs (`dentry`, `rprm_dbg_read`) and device printing are outside
  the modelled behaviour.
-/

/-- Errno constants used by the driver (values as in the Linux uapi). -/
def ENOENT : Int := 2

/-- Errno constant, out of memory. -/
def ENOMEM : Int := 12

/-- Errno constant, device or resource busy. -/
def EBUSY : Int := 16

/-- Errno constant, file exists. -/
def EEXIST : Int := 17

/-- Errno constant, invalid argument. -/
def EINVAL : Int := 22

/-- Errno constant, transport endpoint not connected. -/
def ENOTCONN : Int := 107

/-- Action codes of `enum rprm_action`. -/
def RPRM_REQUEST : Nat := 0

/-- Action code of a release message (`enum rprm_action`). -/
def RPRM_RELEASE : Nat := 1

/-- Resource driver operations (`struct rprm_res`): `request` either
fails with a nonzero status (modelled as the `Except.error` value) or
produces an opaque handle; `release` returns a status, `0` on success.
The optional `get_info` operation only feeds debugfs and is not
modelled.  The resource `name` is only used for log messages. -/
structure RprmRes where
  name : String
  request : List Nat → Except Int Nat
  release : Nat → Int

/-- Manager descriptor (`struct rprm_manager`): `name` is the registry
key, `owner` identifies the owning module (`struct module *`, modelled
as a `Nat` module id), and `resources` is the array
`resources[0 .. res_cnt-1]`, so `res_cnt` is `resources.length`.  The
`next` link is the registry list, `dev`/`dentry` are external. -/
structure RprmManager where
  name : String
  owner : Nat
  resources : List RprmRes

/-- Resource-manager element (`struct rprm_elem`): one live resource
instance of a session.  `resIdx` stands for the pointer
`res = &mgr->resources[resIdx]`, `handle` is the opaque driver handle
and `id` the session-unique resource id.  The `next` link is the
position in the session's `res_list`. -/
structure RprmElem where
  resIdx : Nat
  handle : Nat
  id : Nat
deriving DecidableEq, Repr

/-- Per-connection session state (`struct rprm`): `res_list` is the
linked list of live elements (`list_add` prepends, so the head is the
most recently requested element) and `id_list` is the idr mapping each
resource id to its element (the idr stores a pointer to the same
element, so the pair's second component equals the list entry).  The
`rpdev`, `mgr`, `lock` and `dentry` fields are passed as parameters or
are external. -/
structure Rprm where
  res_list : List RprmElem
  id_list : List (Nat × RprmElem)
deriving DecidableEq, Repr

/-- Session state right after `rprm_probe`: both containers empty. -/
def emptyRprm : Rprm := ⟨[], []⟩

/-- Lookup in the idr (`idr_find`): the element registered under `i`,
if any. -/
def idrFind (t : List (Nat × RprmElem)) (i : Nat) : Option RprmElem :=
  match t.find? (fun p => p.1 == i) with
  | some p => some p.2
  | none => none

/-- Removal from the idr (`idr_remove`): drops the entry keyed `i`. -/
def idrRemove (t : List (Nat × RprmElem)) (i : Nat) : List (Nat × RprmElem) :=
  t.filter (fun p => p.1 != i)

/-- Largest key currently in the idr (used only as a fallback below). -/
def idrMaxKey (t : List (Nat × RprmElem)) : Nat :=
  t.foldr (fun p m => max p.1 m) 0

/-- Id allocation (`idr_get_new`): the lowest non-negative id not in
use.  Searching `0 .. t.length` always finds a free id when the keys
are distinct (as they are in every reachable session state); the
`idrMaxKey t + 1` fallback keeps the definition total and is likewise
never a used key. -/
def idrNewId (t : List (Nat × RprmElem)) : Nat :=
  match (List.range (t.length + 1)).find? (fun n => t.all (fun p => p.1 != n)) with
  | some n => n
  | none => idrMaxKey t + 1

/-- Driver release call made through an element (`e->res->release(mgr,
e->handle)`).  The element's `resIdx` denotes the pointer
`&mgr->resources[resIdx]`; the out-of-range case cannot arise for
elements created by `rprm_resource_request`. -/
def resRelease (mgr : RprmManager) (e : RprmElem) : Int :=
  match mgr.resources.get? e.resIdx with
  | some r => r.release e.handle
  | none => 0

/-- Internal release helper (`_resource_release`): invokes the driver's
`release`; on failure returns the status leaving the list untouched, on
success unlinks (`list_del`) and frees the element.  The third result
component is the list of elements on which a driver `release` call was
made (here always exactly `e`). -/
def _resource_release (mgr : RprmManager) (st : Rprm) (e : RprmElem) :
    Rprm × Int × List RprmElem :=
  let ret := resRelease mgr e
  if ret ≠ 0 then (st, ret, [e])
  else ({ st with res_list := st.res_list.erase e }, 0, [e])

/-- Release of a resource id (`rprm_resource_release`): find the id in
the idr (else `-ENOENT`), remove it from the idr, then run
`_resource_release` on the found element. -/
def rprm_resource_release (mgr : RprmManager) (st : Rprm) (res_id : Nat) :
    Rprm × Int × List RprmElem :=
  match idrFind st.id_list res_id with
  | none => (st, -ENOENT, [])
  | some e => _resource_release mgr { st with id_list := idrRemove st.id_list res_id } e

/-- Resource request (`rprm_resource_request`): bounds-check the index
against `mgr->res_cnt` (else `-EINVAL`), call the driver's `request`,
and on success allocate a fresh id and insert the new element into the
idr and at the head of `res_list` (`list_add` prepends).  Results: new
state, `Except.ok id` or the error status, and the list of `(idx,
args)` driver `request` invocations made. -/
def rprm_resource_request (mgr : RprmManager) (st : Rprm) (idx : Nat)
    (data : List Nat) : Rprm × Except Int Nat × List (Nat × List Nat) :=
  if h : idx < mgr.resources.length then
    match (mgr.resources.get ⟨idx, h⟩).request data with
    | Except.error ret => (st, Except.error ret, [(idx, data)])
    | Except.ok hdl =>
      let id := idrNewId st.id_list
      let e : RprmElem := ⟨idx, hdl, id⟩
      (⟨e :: st.res_list, (id, e) :: st.id_list⟩, Except.ok id, [(idx, data)])
  else (st, Except.error (-EINVAL), [])

/-- Teardown loop body of `rprm_remove`
(`list_for_each_entry_safe(e, tmp, &rprm->res_list, next)
_resource_release(rprm, e);`): walks the list from its head, invoking
the driver `release` once on every element; elements whose release
fails stay linked.  Returns the remaining list and the elements
released, in invocation order. -/
def removeAll (mgr : RprmManager) : List RprmElem → List RprmElem × List RprmElem
  | [] => ([], [])
  | e :: rest =>
    let ret := resRelease mgr e
    let (rem, tr) := removeAll mgr rest
    (if ret = 0 then rem else e :: rem, e :: tr)

/-- Channel teardown (`rprm_remove`): release every remaining element
walking `res_list` from its head, then `idr_remove_all`/`idr_destroy`
the idr.  The second component is the sequence of elements on which the
driver `release` was invoked, in invocation order.  (The
`module_put(rprm->mgr->owner)` side effect lives in the registry model
below.) -/
def rprm_remove (mgr : RprmManager) (st : Rprm) : Rprm × List RprmElem :=
  let (rem, tr) := removeAll mgr st.res_list
  (⟨rem, []⟩, tr)

/-- Body of a request acknowledgment (`struct rprm_request_ack`):
resource id and the echoed request data.  The `base` field is never
assigned by `rprm_cb` (it keeps stack residue on the wire) and is
omitted from the model. -/
structure RackBody where
  res_id : Nat
  data : List Nat
deriving DecidableEq, Repr

/-- Acknowledgment message (`struct rprm_ack`): echoed action code, the
status (`ack->ret`, negative on failure; the wire stores it as a
two's-complement u32) and the optional `rprm_request_ack` body, present
exactly when a request succeeded (`len = ret ? 0 : len`). -/
structure RprmAck where
  action : Nat
  ret : Int
  body : Option RackBody
deriving DecidableEq, Repr

/-- Little-endian u32 read at byte offset `off` of a message buffer
(the pointer casts `msg->action`, `req->idx`, `rel->res_id`).  Only
used at offsets the length checks have validated. -/
def readU32 (bs : List Nat) (off : Nat) : Nat :=
  bs.getD off 0 + 256 * bs.getD (off + 1) 0 + 65536 * bs.getD (off + 2) 0 +
    16777216 * bs.getD (off + 3) 0

/-- Inbound message callback (`rprm_cb`).  `dst` is `rpdev->dst` (the
established remote endpoint), `bytes` the delivered buffer, `src` the
sender.  Mirrors the C control flow: reject buffers shorter than
`sizeof(struct rprm_msg)` (4 bytes) with no reply; reject foreign
senders with a `-ENOTCONN` ack; dispatch on `msg->action`, where a
truncated request gets a `-EINVAL` ack, a truncated release gets no
reply, a request outcome is acked (body only on success, echoing the
request data), a release is never acked, and an unknown action gets a
`-EINVAL` ack.  Results: new session state, the ack sent (if any), the
driver `request` invocations and the driver `release` invocations. -/
def rprm_cb (mgr : RprmManager) (dst : Nat) (st : Rprm) (bytes : List Nat)
    (src : Nat) : Rprm × Option RprmAck × List (Nat × List Nat) × List RprmElem :=
  if (bytes.length : Int) - 4 < 0 then (st, none, [], [])
  else if dst ≠ src then (st, some ⟨readU32 bytes 0, -ENOTCONN, none⟩, [], [])
  else
    let action := readU32 bytes 0
    if action = RPRM_REQUEST then
      if (bytes.length : Int) - 4 - 4 < 0 then (st, some ⟨action, -EINVAL, none⟩, [], [])
      else
        match rprm_resource_request mgr st (readU32 bytes 4) (bytes.drop 8) with
        | (st', Except.ok id, tr) =>
          (st', some ⟨action, 0, some ⟨id, bytes.drop 8⟩⟩, tr, [])
        | (st', Except.error ret, tr) => (st', some ⟨action, ret, none⟩, tr, [])
    else if action = RPRM_RELEASE then
      if (bytes.length : Int) - 4 - 4 < 0 then (st, none, [], [])
      else
        let (st', _, tr) := rprm_resource_release mgr st (readU32 bytes 4)
        (st', none, [], tr)
    else (st, some ⟨action, -EINVAL, none⟩, [], [])

/-- Session-level operations, for stating reachability: a resource
request, a resource release, or the channel teardown. -/
inductive ROp where
  | req (idx : Nat) (data : List Nat)
  | rel (rid : Nat)
  | remove
deriving Repr

/-- State reached by one session operation. -/
def rstep (mgr : RprmManager) (st : Rprm) : ROp → Rprm
  | ROp.req idx data => (rprm_resource_request mgr st idx data).1
  | ROp.rel rid => (rprm_resource_release mgr st rid).1
  | ROp.remove => (rprm_remove mgr st).1

/-- State reached by a sequence of session operations. -/
def rrun (mgr : RprmManager) (st : Rprm) (ops : List ROp) : Rprm :=
  ops.foldl (rstep mgr) st

/-- Sequential requests, recording each request's outcome in order. -/
def runReqs (mgr : RprmManager) (st : Rprm) :
    List (Nat × List Nat) → Rprm × List (Except Int Nat)
  | [] => (st, [])
  | (idx, d) :: rest =>
    let (st', r, _) := rprm_resource_request mgr st idx d
    let (stf, rs) := runReqs mgr st' rest
    (stf, r :: rs)

/-- Successful request outcome, as an optional id. -/
def okId : Except Int Nat → Option Nat
  | Except.ok i => some i
  | Except.error _ => none

/-- Request outcome test. -/
def isOkN : Except Int Nat → Bool
  | Except.ok _ => true
  | Except.error _ => false

/-- Ids currently live in the session's handle table. -/
def tableKeys (st : Rprm) : List Nat :=
  st.id_list.map Prod.fst

/-- Ids of the elements on the session's ordered list. -/
def listIds (st : Rprm) : List Nat :=
  st.res_list.map RprmElem.id

lemma key_le_idrMaxKey (t : List (Nat × RprmElem)) :
    ∀ p ∈ t, p.1 ≤ idrMaxKey t := by
  induction t with
  | nil => intro p hp; cases hp
  | cons a rest ih =>
    intro p hp
    rcases List.mem_cons.mp hp with rfl | hp
    · exact le_max_left _ _
    · exact le_trans (ih p hp) (le_max_right _ _)

lemma idrNewId_fresh (t : List (Nat × RprmElem)) :
    ∀ p ∈ t, p.1 ≠ idrNewId t := by
  intro p hp
  unfold idrNewId
  split
  next n hf =>
    have hall := List.find?_some hf
    rw [List.all_eq_true] at hall
    simpa using hall p hp
  next hf =>
    have := key_le_idrMaxKey t p hp
    omega

lemma idrNewId_not_key (t : List (Nat × RprmElem)) :
    idrNewId t ∉ t.map Prod.fst := by
  intro hmem
  rcases List.mem_map.mp hmem with ⟨p, hp, hq⟩
  exact idrNewId_fresh t p hp hq

lemma removeAll_trace (mgr : RprmManager) (l : List RprmElem) :
    (removeAll mgr l).2 = l := by
  induction l with
  | nil => rfl
  | cons e rest ih => simp [removeAll, ih]

lemma removeAll_all_ok (mgr : RprmManager) (l : List RprmElem)
    (h : ∀ e ∈ l, resRelease mgr e = 0) : (removeAll mgr l).1 = [] := by
  induction l with
  | nil => rfl
  | cons e rest ih =>
    have he := h e (List.mem_cons_self _ _)
    have ih' := ih (fun x hx => h x (List.mem_cons_of_mem _ hx))
    simp [removeAll, he, ih']

lemma _resource_release_id_list (mgr : RprmManager) (st : Rprm) (e : RprmElem) :
    (_resource_release mgr st e).1.id_list = st.id_list := by
  simp only [_resource_release]
  split <;> rfl

lemma rprm_resource_request_state (mgr : RprmManager) (st : Rprm) (idx : Nat)
    (data : List Nat) :
    ((rprm_resource_request mgr st idx data).1 = st ∧
      ∃ r, (rprm_resource_request mgr st idx data).2.1 = Except.error r) ∨
    ∃ hdl, (rprm_resource_request mgr st idx data).1 =
        ⟨⟨idx, hdl, idrNewId st.id_list⟩ :: st.res_list,
          (idrNewId st.id_list, ⟨idx, hdl, idrNewId st.id_list⟩) :: st.id_list⟩ ∧
      (rprm_resource_request mgr st idx data).2.1 = Except.ok (idrNewId st.id_list) := by
  unfold rprm_resource_request
  split
  · split
    · exact Or.inl ⟨rfl, _, rfl⟩
    · exact Or.inr ⟨_, rfl, rfl⟩
  · exact Or.inl ⟨rfl, _, rfl⟩

lemma rprm_resource_request_error_state (mgr : RprmManager) (st : Rprm)
    (idx : Nat) (data : List Nat) (st' : Rprm) (r : Int) (tr : List (Nat × List Nat))
    (h : rprm_resource_request mgr st idx data = (st', Except.error r, tr)) :
    st' = st := by
  rcases rprm_resource_request_state mgr st idx data with ⟨h1, _, _⟩ | ⟨hdl, h1, h2⟩
  · rw [h] at h1; exact h1
  · rw [h] at h2; cases h2

lemma rprm_resource_request_ok_state (mgr : RprmManager) (st : Rprm)
    (idx : Nat) (data : List Nat) (st' : Rprm) (id : Nat) (tr : List (Nat × List Nat))
    (h : rprm_resource_request mgr st idx data = (st', Except.ok id, tr)) :
    id = idrNewId st.id_list ∧
      ∃ hdl, st' = ⟨⟨idx, hdl, id⟩ :: st.res_list, (id, ⟨idx, hdl, id⟩) :: st.id_list⟩ := by
  rcases rprm_resource_request_state mgr st idx data with ⟨h1, r, herr⟩ | ⟨hdl, h1, h2⟩
  · rw [h] at herr; cases herr
  · rw [h] at h1 h2
    simp only at h1 h2
    obtain rfl : id = idrNewId st.id_list := by
      simpa using h2
    exact ⟨rfl, hdl, h1⟩

lemma rprm_resource_release_state (mgr : RprmManager) (st : Rprm) (rid : Nat) :
    (rprm_resource_release mgr st rid).1 = st ∨
    ∃ e, idrFind st.id_list rid = some e ∧
      ((rprm_resource_release mgr st rid).1 = ⟨st.res_list, idrRemove st.id_list rid⟩ ∨
       (rprm_resource_release mgr st rid).1 =
         ⟨st.res_list.erase e, idrRemove st.id_list rid⟩) := by
  unfold rprm_resource_release
  split
  next hf => exact Or.inl rfl
  next e hf =>
    refine Or.inr ⟨e, hf, ?_⟩
    simp only [_resource_release]
    split
    · exact Or.inl rfl
    · exact Or.inr rfl

lemma rprm_remove_id_list (mgr : RprmManager) (st : Rprm) :
    (rprm_remove mgr st).1.id_list = [] := by
  simp [rprm_remove]

lemma tableKeys_map_pair (l : List RprmElem) :
    tableKeys ⟨l, l.map (fun e => (e.id, e))⟩ = l.map RprmElem.id := by
  simp [tableKeys]

lemma request_keys_nodup (mgr : RprmManager) (st : Rprm) (idx : Nat)
    (data : List Nat) (h : (tableKeys st).Nodup) :
    (tableKeys (rprm_resource_request mgr st idx data).1).Nodup := by
  rcases rprm_resource_request_state mgr st idx data with ⟨h1, _, _⟩ | ⟨hdl, h1, h2⟩
  · rw [h1]; exact h
  · rw [h1]
    refine List.nodup_cons.mpr ⟨?_, h⟩
    exact idrNewId_not_key st.id_list

lemma release_keys_nodup (mgr : RprmManager) (st : Rprm) (rid : Nat)
    (h : (tableKeys st).Nodup) :
    (tableKeys (rprm_resource_release mgr st rid).1).Nodup := by
  rcases rprm_resource_release_state mgr st rid with h1 | ⟨e, hf, h1 | h1⟩ <;>
    rw [h1] <;>
    first
      | exact h
      | exact List.Nodup.sublist ((List.filter_sublist _).map Prod.fst) h

lemma rstep_keys_nodup (mgr : RprmManager) (st : Rprm) (op : ROp)
    (h : (tableKeys st).Nodup) : (tableKeys (rstep mgr st op)).Nodup := by
  cases op with
  | req idx data => exact request_keys_nodup mgr st idx data h
  | rel rid => exact release_keys_nodup mgr st rid h
  | remove =>
    have : tableKeys (rstep mgr st ROp.remove) = [] := by
      simp [rstep, tableKeys, rprm_remove_id_list]
    rw [this]; exact List.nodup_nil

lemma rrun_keys_nodup (mgr : RprmManager) (ops : List ROp) :
    ∀ st : Rprm, (tableKeys st).Nodup → (tableKeys (rrun mgr st ops)).Nodup := by
  induction ops with
  | nil => intro st h; exact h
  | cons op rest ih =>
    intro st h
    rw [rrun, List.foldl_cons]
    exact ih (rstep mgr st op) (rstep_keys_nodup mgr st op h)

lemma runReqs_track (mgr : RprmManager) :
    ∀ (inputs : List (Nat × List Nat)) (st : Rprm),
      tableKeys (runReqs mgr st inputs).1 =
        ((runReqs mgr st inputs).2.filterMap okId).reverse ++ tableKeys st ∧
      listIds (runReqs mgr st inputs).1 =
        ((runReqs mgr st inputs).2.filterMap okId).reverse ++ listIds st := by
  intro inputs
  induction inputs with
  | nil => intro st; simp [runReqs]
  | cons p rest ih =>
    intro st
    obtain ⟨idx, d⟩ := p
    rcases hc : rprm_resource_request mgr st idx d with ⟨st', r, tr⟩
    have hrun : runReqs mgr st ((idx, d) :: rest) =
        ((runReqs mgr st' rest).1, r :: (runReqs mgr st' rest).2) := by
      simp [runReqs, hc]
    rcases ih st' with ⟨ihk, ihl⟩
    cases r with
    | error err =>
      have hst : st' = st := rprm_resource_request_error_state mgr st idx d st' err tr hc
      rw [hrun]
      subst hst
      simpa [okId] using And.intro ihk ihl
    | ok id =>
      obtain ⟨hid, hdl, hst⟩ :=
        rprm_resource_request_ok_state mgr st idx d st' id tr hc
      rw [hrun]
      subst hst
      constructor
      · rw [ihk]
        simp [tableKeys, okId, List.filterMap_cons, List.append_assoc]
      · rw [ihl]
        simp [listIds, okId, List.filterMap_cons, List.append_assoc]

lemma runReqs_keys_nodup (mgr : RprmManager) :
    ∀ (inputs : List (Nat × List Nat)) (st : Rprm),
      (tableKeys st).Nodup → (tableKeys (runReqs mgr st inputs).1).Nodup := by
  intro inputs
  induction inputs with
  | nil => intro st h; exact h
  | cons p rest ih =>
    intro st h
    obtain ⟨idx, d⟩ := p
    rcases hc : rprm_resource_request mgr st idx d with ⟨st', r, tr⟩
    have hrun : (runReqs mgr st ((idx, d) :: rest)).1 = (runReqs mgr st' rest).1 := by
      simp [runReqs, hc]
    rw [hrun]
    refine ih st' ?_
    have : st' = (rprm_resource_request mgr st idx d).1 := by rw [hc]
    rw [this]
    exact request_keys_nodup mgr st idx d h

lemma runReqs_results_length (mgr : RprmManager) :
    ∀ (inputs : List (Nat × List Nat)) (st : Rprm),
      (runReqs mgr st inputs).2.length = inputs.length := by
  intro inputs
  induction inputs with
  | nil => intro st; rfl
  | cons p rest ih =>
    intro st
    obtain ⟨idx, d⟩ := p
    rcases hc : rprm_resource_request mgr st idx d with ⟨st', r, tr⟩
    simp [runReqs, hc, ih st']

lemma filterMap_okId_length (rs : List (Except Int Nat))
    (h : rs.all isOkN = true) : (rs.filterMap okId).length = rs.length := by
  induction rs with
  | nil => rfl
  | cons r rest ih =>
    rw [List.all_cons, Bool.and_eq_true] at h
    cases r with
    | ok i => simp [okId, ih h.2]
    | error e => cases h.1.symm.trans (rfl : isOkN (Except.error e) = false)

/-- Consistency of a session state: the idr holds exactly the pairs
`(e.id, e)` for the elements `e` of the ordered list, and the list ids
are pairwise distinct — every table id has exactly one list entry and
every list entry exactly one table id. -/
def goodState (st : Rprm) : Prop :=
  st.id_list = st.res_list.map (fun e => (e.id, e)) ∧ (listIds st).Nodup

lemma idrFind_map_pair (l : List RprmElem) (rid : Nat) (e : RprmElem)
    (h : idrFind (l.map (fun x => (x.id, x))) rid = some e) :
    e ∈ l ∧ e.id = rid := by
  induction l with
  | nil => simp [idrFind] at h
  | cons a rest ih =>
    by_cases ha : a.id = rid
    · have : idrFind ((a :: rest).map (fun x => (x.id, x))) rid = some a := by
        simp [idrFind, List.find?_cons_of_pos, ha]
      rw [this] at h
      obtain rfl : a = e := by simpa using h
      exact ⟨List.mem_cons_self _ _, ha⟩
    · have hstep : idrFind ((a :: rest).map (fun x => (x.id, x))) rid =
          idrFind (rest.map (fun x => (x.id, x))) rid := by
        simp only [List.map_cons, idrFind]
        rw [List.find?_cons_of_neg]
        simpa using ha
      rw [hstep] at h
      obtain ⟨hmem, hid⟩ := ih h
      exact ⟨List.mem_cons_of_mem _ hmem, hid⟩

lemma filter_map_pair_erase (l : List RprmElem) (rid : Nat) (e : RprmElem)
    (hnd : (l.map RprmElem.id).Nodup)
    (hf : idrFind (l.map (fun x => (x.id, x))) rid = some e) :
    (l.map (fun x => (x.id, x))).filter (fun p => p.1 != rid) =
      (l.erase e).map (fun x => (x.id, x)) := by
  induction l with
  | nil => simp [idrFind] at hf
  | cons a rest ih =>
    rw [List.map_cons, List.nodup_cons] at hnd
    by_cases ha : a.id = rid
    · have : idrFind ((a :: rest).map (fun x => (x.id, x))) rid = some a := by
        simp [idrFind, List.find?_cons_of_pos, ha]
      rw [this] at hf
      obtain rfl : a = e := by simpa using hf
      rw [List.erase_cons_head]
      rw [List.map_cons, List.filter_cons]
      have hhead : ((a.id, a).1 != rid) = false := by simp [ha]
      rw [hhead]
      simp only [Bool.false_eq_true, if_false]
      refine List.filter_eq_self.mpr ?_
      intro p hp
      rcases List.mem_map.mp hp with ⟨x, hx, rfl⟩
      have : x.id ≠ rid := by
        intro hxe
        exact hnd.1 (by rw [← ha] at hxe; exact hxe ▸ List.mem_map_of_mem RprmElem.id hx)
      simpa using this
    · have hstep : idrFind ((a :: rest).map (fun x => (x.id, x))) rid =
          idrFind (rest.map (fun x => (x.id, x))) rid := by
        simp only [List.map_cons, idrFind]
        rw [List.find?_cons_of_neg]
        simpa using ha
      rw [hstep] at hf
      obtain ⟨hmem, hid⟩ := idrFind_map_pair rest rid e hf
      have hae : a ≠ e := by
        intro hae
        exact ha (by rw [hae, hid])
      rw [List.erase_cons_tail]
      · rw [List.map_cons, List.map_cons, List.filter_cons]
        have hhead : ((a.id, a).1 != rid) = true := by simpa using ha
        rw [hhead]
        simp only [if_true]
        rw [ih hnd.2 hf]
      · simpa using hae

/-- Managers whose resource drivers never fail a `release` call. -/
def relOk (mgr : RprmManager) : Prop :=
  ∀ r ∈ mgr.resources, ∀ h : Nat, r.release h = 0

lemma resRelease_zero (mgr : RprmManager) (hm : relOk mgr) (e : RprmElem) :
    resRelease mgr e = 0 := by
  unfold resRelease
  cases hg : mgr.resources.get? e.resIdx with
  | none => rfl
  | some r => exact hm r (List.get?_mem hg) e.handle

lemma request_good (mgr : RprmManager) (st : Rprm) (idx : Nat) (data : List Nat)
    (hg : goodState st) : goodState (rprm_resource_request mgr st idx data).1 := by
  rcases rprm_resource_request_state mgr st idx data with ⟨h1, _, _⟩ | ⟨hdl, h1, h2⟩
  · rw [h1]; exact hg
  · rw [h1]
    obtain ⟨hmap, hnd⟩ := hg
    constructor
    · simp only [List.map_cons]
      rw [hmap]
    · refine List.nodup_cons.mpr ⟨?_, hnd⟩
      have hkeys : st.id_list.map Prod.fst = st.res_list.map RprmElem.id := by
        rw [hmap]; simp [List.map_map, Function.comp]
      have hfresh := idrNewId_not_key st.id_list
      rw [hkeys] at hfresh
      simpa [listIds] using hfresh

lemma release_good (mgr : RprmManager) (hm : relOk mgr) (st : Rprm) (rid : Nat)
    (hg : goodState st) : goodState (rprm_resource_release mgr st rid).1 := by
  obtain ⟨hmap, hnd⟩ := hg
  unfold rprm_resource_release
  split
  next hf => exact ⟨hmap, hnd⟩
  next e hf =>
    have hr0 : resRelease mgr e = 0 := resRelease_zero mgr hm e
    simp only [_resource_release, hr0]
    simp only [ne_eq, not_true_eq_false, if_false, reduceIte]
    rw [hmap] at hf
    obtain ⟨hmem, hid⟩ := idrFind_map_pair st.res_list rid e hf
    constructor
    · show idrRemove st.id_list rid = (st.res_list.erase e).map (fun x => (x.id, x))
      rw [idrRemove, hmap]
      exact filter_map_pair_erase st.res_list rid e hnd hf
    · show ((st.res_list.erase e).map RprmElem.id).Nodup
      exact List.Nodup.sublist ((st.res_list.erase_sublist e).map RprmElem.id) hnd

lemma remove_good (mgr : RprmManager) (hm : relOk mgr) (st : Rprm) :
    goodState (rprm_remove mgr st).1 := by
  have hall : (removeAll mgr st.res_list).1 = [] :=
    removeAll_all_ok mgr st.res_list (fun e _ => resRelease_zero mgr hm e)
  simp [rprm_remove, hall, goodState, listIds]

lemma rstep_good (mgr : RprmManager) (hm : relOk mgr) (st : Rprm) (op : ROp)
    (hg : goodState st) : goodState (rstep mgr st op) := by
  cases op with
  | req idx data => exact request_good mgr st idx data hg
  | rel rid => exact release_good mgr hm st rid hg
  | remove => exact remove_good mgr hm st

lemma rrun_good (mgr : RprmManager) (hm : relOk mgr) (ops : List ROp) :
    ∀ st : Rprm, goodState st → goodState (rrun mgr st ops) := by
  induction ops with
  | nil => intro st h; exact h
  | cons op rest ih =>
    intro st h
    rw [rrun, List.foldl_cons]
    exact ih (rstep mgr st op) (rstep_good mgr hm st op h)

/-- Global registry state: the manager table (`mgr_table`, guarded by
`table_lock`), the per-module reference counts (`module_refcount`,
maintained by `try_module_get`/`module_put`), and the live connections
(one entry per session, recording which manager it is bound to). -/
structure GState where
  mgr_table : List RprmManager
  refcnt : Nat → Nat
  sessions : List RprmManager

/-- Initial global state: no managers, no sessions, all counts zero. -/
def g0 : GState := ⟨[], fun _ => 0, []⟩

/-- Manager registration (`rprm_manager_register`): fail with `-EEXIST`
when a manager of the same name is registered (`__find_mgr_by_name`),
else append to the table (`list_add_tail`).  The null-pointer guard
(`!mgr || !mgr->name`, `-EINVAL`) has no counterpart for a value model;
`debugfs_create_dir` is external. -/
def rprm_manager_register (g : GState) (mgr : RprmManager) : GState × Int :=
  if g.mgr_table.any (fun m => m.name == mgr.name) then (g, -EEXIST)
  else ({ g with mgr_table := g.mgr_table ++ [mgr] }, 0)

/-- Manager unregistration (`rprm_manager_unregister`): fail with
`-EBUSY` when the owning module's reference count is nonzero
(`module_refcount(mgr->owner)`), else unlink the manager from the table
(`list_del`; under the registration discipline names are unique, so
unlinking the node is dropping the entries of that name).  The
null-pointer guard and `debugfs_remove` are external. -/
def rprm_manager_unregister (g : GState) (mgr : RprmManager) : GState × Int :=
  if g.refcnt mgr.owner ≠ 0 then (g, -EBUSY)
  else ({ g with mgr_table := g.mgr_table.filter (fun m => m.name != mgr.name) }, 0)

/-- Connection creation (`rprm_probe`): look up the manager whose name
matches the channel name (else `-ENOENT`), take a reference on its
owning module (`try_module_get`, modelled as always succeeding since
the module is loaded while its manager is registered), and record the
new session.  `kmalloc` is modelled as succeeding; the connect ack
carries the returned status. -/
def rprm_probe (g : GState) (chanName : String) : GState × Int :=
  match g.mgr_table.find? (fun m => m.name == chanName) with
  | none => (g, -ENOENT)
  | some mgr =>
    ({ g with
        refcnt := fun m => if m = mgr.owner then g.refcnt m + 1 else g.refcnt m,
        sessions := g.sessions ++ [mgr] }, 0)

/-- Connection teardown at the registry level (the
`module_put(rprm->mgr->owner)` of `rprm_remove`): drop session `i` and
its module reference.  The session's resource cleanup is `rprm_remove`
in the session model above. -/
def rprm_close (g : GState) (i : Nat) : GState :=
  match g.sessions.get? i with
  | none => g
  | some mgr =>
    { g with
        refcnt := fun m => if m = mgr.owner then g.refcnt m - 1 else g.refcnt m,
        sessions := g.sessions.eraseIdx i }

/-- Registry-level operations, for stating reachability. -/
inductive GOp where
  | reg (mgr : RprmManager)
  | unreg (mgr : RprmManager)
  | probe (chanName : String)
  | close (i : Nat)

/-- State reached by one registry operation. -/
def gstep (g : GState) : GOp → GState
  | GOp.reg m => (rprm_manager_register g m).1
  | GOp.unreg m => (rprm_manager_unregister g m).1
  | GOp.probe n => (rprm_probe g n).1
  | GOp.close i => rprm_close g i

/-- State reached by a sequence of registry operations from boot. -/
def grun (ops : List GOp) : GState :=
  ops.foldl gstep g0

/-- Reference-count accounting invariant: each module's count is the
number of live sessions bound to a manager this module owns. -/
def refInv (g : GState) : Prop :=
  ∀ m : Nat, g.refcnt m = g.sessions.countP (fun mg => mg.owner == m)

lemma countP_eraseIdx (p : RprmManager → Bool) :
    ∀ (l : List RprmManager) (i : Nat) (a : RprmManager), l.get? i = some a →
      l.countP p = (l.eraseIdx i).countP p + (if p a then 1 else 0) := by
  intro l
  induction l with
  | nil => intro i a h; cases h
  | cons b rest ih =>
    intro i a h
    cases i with
    | zero =>
      obtain rfl : b = a := by simpa using h
      simp [List.eraseIdx_cons_zero, List.countP_cons]
    | succ j =>
      have h' : rest.get? j = some a := by simpa using h
      simp only [List.eraseIdx_cons_succ, List.countP_cons]
      rw [ih j a h']
      split <;> omega

lemma gstep_refInv (g : GState) (op : GOp) (h : refInv g) : refInv (gstep g op) := by
  cases op with
  | reg mgr =>
    simp only [gstep, rprm_manager_register]
    split
    · exact h
    · exact h
  | unreg mgr =>
    simp only [gstep, rprm_manager_unregister]
    split
    · exact h
    · exact h
  | probe chanName =>
    simp only [gstep, rprm_probe]
    split
    next hf => exact h
    next mgr hf =>
      intro m
      simp only [List.countP_append, List.countP_cons, List.countP_nil]
      by_cases hm : m = mgr.owner
      · subst hm
        simp [h mgr.owner]
      · simp [hm, h m, Ne.symm hm]
  | close i =>
    simp only [gstep, rprm_close]
    split
    next hf => exact h
    next mgr hf =>
      intro m
      have hcount := countP_eraseIdx (fun mg => mg.owner == m) g.sessions i mgr hf
      dsimp only
      by_cases hm : m = mgr.owner
      · subst hm
        rw [if_pos rfl, h mgr.owner, hcount]
        simp
      · rw [if_neg hm, h m, hcount]
        have hfalse : (mgr.owner == m) = false := by simpa using Ne.symm hm
        simp [hfalse]

lemma grun_refInv (ops : List GOp) : refInv (grun ops) := by
  have base : refInv g0 := by intro m; simp [g0]
  have : ∀ (l : List GOp) (g : GState), refInv g → refInv (l.foldl gstep g) := by
    intro l
    induction l with
    | nil => intro g hg; exact hg
    | cons op rest ih => intro g hg; exact ih (gstep g op) (gstep_refInv g op hg)
  exact this ops g0 base

/-- Test resource whose request always yields handle 10 and whose
release always succeeds. -/
def resOk0 : RprmRes := ⟨"res0", fun _ => Except.ok 10, fun _ => 0⟩

/-- Test resource whose request always yields handle 11 and whose
release always succeeds. -/
def resOk1 : RprmRes := ⟨"res1", fun _ => Except.ok 11, fun _ => 0⟩

/-- Test manager exposing two well-behaved resources. -/
def mgrTwo : RprmManager := ⟨"mgr-two", 0, [resOk0, resOk1]⟩

/-- Test resource whose driver `release` fails (returns 1). -/
def resBad : RprmRes := ⟨"res-bad", fun _ => Except.ok 12, fun _ => 1⟩

/-- Test manager whose single resource fails every `release`. -/
def mgrBad : RprmManager := ⟨"mgr-bad", 1, [resBad]⟩

lemma relOk_mgrTwo : relOk mgrTwo := by
  intro r hr h
  simp only [mgrTwo, List.mem_cons, List.mem_singleton, List.not_mem_nil] at hr
  rcases hr with rfl | rfl | hr
  · rfl
  · rfl
  · cases hr

lemma runReqs_ids_nodup (mgr : RprmManager) (inputs : List (Nat × List Nat)) :
    ((runReqs mgr emptyRprm inputs).2.filterMap okId).Nodup := by
  have hk := (runReqs_track mgr inputs emptyRprm).1
  have hn := runReqs_keys_nodup mgr inputs emptyRprm (by simp [tableKeys, emptyRprm])
  rw [hk] at hn
  rw [← List.nodup_reverse]
  simpa [tableKeys, emptyRprm] using hn

/-- Claim C1, counterexample: with two successful requests (indexes 0
then 1, issued ids 0 then 1), channel teardown invokes the driver
releases on instance ids `[1, 0]` — the reverse of the acquisition
order `[0, 1]` — so the releases are not in the order the resources
were originally acquired. -/
theorem rprm_remove_order_cex :
    ((rprm_remove mgrTwo (runReqs mgrTwo emptyRprm [(0, []), (1, [])]).1).2.map
        RprmElem.id = [1, 0]) ∧
    (runReqs mgrTwo emptyRprm [(0, []), (1, [])]).2.filterMap okId = [0, 1] ∧
    ([1, 0] : List Nat) ≠ [0, 1] := by
  refine ⟨by decide, by decide, by decide⟩

/-- Claim C1 (amended): tearing down a session with outstanding
resources invokes the driver `release` exactly once per outstanding
instance, walking the ordered list from its head — which is the REVERSE
of acquisition order, since requests prepend.  Concretely: the teardown
release trace is exactly `st.res_list` (one invocation per entry, in
list order), and after any request sequence from an empty session the
released instance ids are the reverse of the (pairwise distinct) issued
ids. -/
theorem rprm_remove_release_order (mgr : RprmManager) (st : Rprm)
    (inputs : List (Nat × List Nat)) :
    (rprm_remove mgr st).2 = st.res_list ∧
    ((rprm_remove mgr (runReqs mgr emptyRprm inputs).1).2.map RprmElem.id =
      ((runReqs mgr emptyRprm inputs).2.filterMap okId).reverse) ∧
    ((runReqs mgr emptyRprm inputs).2.filterMap okId).Nodup := by
  refine ⟨?_, ?_, runReqs_ids_nodup mgr inputs⟩
  · simp [rprm_remove, removeAll_trace]
  · have h := (runReqs_track mgr inputs emptyRprm).2
    have h2 : (rprm_remove mgr (runReqs mgr emptyRprm inputs).1).2 =
        (runReqs mgr emptyRprm inputs).1.res_list := by
      simp [rprm_remove, removeAll_trace]
    rw [h2]
    simpa [listIds, emptyRprm] using h

/-- Claim C2, counterexample: on the manager whose driver `release`
fails, a successful request (id 0) followed by `Release(0)` reaches a
session state whose id table is empty while the ordered list still
holds the instance — the list entry has no id in the table, so table
and list are not consistent. -/
theorem rprm_consistency_cex :
    (rrun mgrBad emptyRprm [ROp.req 0 [], ROp.rel 0]).id_list = [] ∧
    (rrun mgrBad emptyRprm [ROp.req 0 [], ROp.rel 0]).res_list =
      [⟨0, 12, 0⟩] := by
  refine ⟨by decide, by decide⟩

/-- Claim C2 (amended): provided the manager's resource drivers never
fail a `release` call, every state reached from an empty session by
request, release and teardown operations (driver `request` failures
included) has its id table equal to the pairs `(e.id, e)` of the
ordered list with pairwise-distinct ids — every table id has exactly
one list entry and every list entry exactly one table id.  (When a
driver `release` fails, the code removes the id from the table before
attempting the release and leaves the entry on the list, breaking
consistency, as the counterexample shows.) -/
theorem rprm_table_list_consistent (mgr : RprmManager) (hm : relOk mgr)
    (ops : List ROp) :
    (rrun mgr emptyRprm ops).id_list =
      (rrun mgr emptyRprm ops).res_list.map (fun e => (e.id, e)) ∧
    (listIds (rrun mgr emptyRprm ops)).Nodup :=
  rrun_good mgr hm ops emptyRprm ⟨rfl, List.nodup_nil⟩

/-- Claim C2, witness: the amended consistency theorem applied to the
two-resource manager over a request/request/release run. -/
theorem rprm_table_list_consistent_wit :
    (rrun mgrTwo emptyRprm [ROp.req 0 [], ROp.req 1 [], ROp.rel 0]).id_list =
      (rrun mgrTwo emptyRprm [ROp.req 0 [], ROp.req 1 [],
        ROp.rel 0]).res_list.map (fun e => (e.id, e)) ∧
    (listIds (rrun mgrTwo emptyRprm [ROp.req 0 [], ROp.req 1 [],
      ROp.rel 0])).Nodup :=
  rprm_table_list_consistent mgrTwo relOk_mgrTwo
    [ROp.req 0 [], ROp.req 1 [], ROp.rel 0]

/-- Claim C3: starting from an empty handle table, a request that the
resource driver accepts (returning id) followed immediately by a
release of that id leaves the session's handle table (the idr) empty —
whatever the driver's `release` then returns, since
`rprm_resource_release` removes the id from the idr before calling the
driver. -/
theorem rprm_request_release_empty (mgr : RprmManager) (idx : Nat)
    (data : List Nat) (st1 : Rprm) (id : Nat) (tr : List (Nat × List Nat))
    (h : rprm_resource_request mgr emptyRprm idx data = (st1, Except.ok id, tr)) :
    (rprm_resource_release mgr st1 id).1.id_list = [] := by
  obtain ⟨hid, hdl, hst⟩ :=
    rprm_resource_request_ok_state mgr emptyRprm idx data st1 id tr h
  subst hst
  have hfind : idrFind [(id, (⟨idx, hdl, id⟩ : RprmElem))] id =
      some ⟨idx, hdl, id⟩ := by
    simp [idrFind]
  show (rprm_resource_release mgr
    ⟨[⟨idx, hdl, id⟩], [(id, ⟨idx, hdl, id⟩)]⟩ id).1.id_list = []
  unfold rprm_resource_release
  rw [show (⟨[⟨idx, hdl, id⟩], [(id, ⟨idx, hdl, id⟩)]⟩ : Rprm).id_list =
    [(id, (⟨idx, hdl, id⟩ : RprmElem))] from rfl, hfind]
  rw [_resource_release_id_list]
  simp [idrRemove]

/-- Claim C3, witness: on the two-resource manager, requesting index 0
with args `[5]` from an empty session succeeds with id 0, and releasing
id 0 leaves the handle table empty. -/
theorem rprm_request_release_empty_wit :
    rprm_resource_request mgrTwo emptyRprm 0 [5] =
      (⟨[⟨0, 10, 0⟩], [(0, ⟨0, 10, 0⟩)]⟩, Except.ok 0, [(0, [5])]) ∧
    (rprm_resource_release mgrTwo ⟨[⟨0, 10, 0⟩], [(0, ⟨0, 10, 0⟩)]⟩ 0).1.id_list = [] :=
  ⟨rfl,
   rprm_request_release_empty mgrTwo 0 [5] ⟨[⟨0, 10, 0⟩], [(0, ⟨0, 10, 0⟩)]⟩ 0
     [(0, [5])] rfl⟩

/-- Claim C4: resource ids live in a session's handle table are
pairwise distinct in every state reachable by request/release/teardown
operations, and a run of sequential requests with no releases issues
pairwise-distinct ids — when all N of them succeed, exactly N distinct
ids. -/
theorem rprm_ids_unique (mgr : RprmManager) :
    (∀ ops : List ROp, (tableKeys (rrun mgr emptyRprm ops)).Nodup) ∧
    (∀ inputs : List (Nat × List Nat),
      ((runReqs mgr emptyRprm inputs).2.filterMap okId).Nodup ∧
      ((runReqs mgr emptyRprm inputs).2.all isOkN = true →
        ((runReqs mgr emptyRprm inputs).2.filterMap okId).length =
          inputs.length)) := by
  constructor
  · intro ops
    exact rrun_keys_nodup mgr ops emptyRprm (by simp [tableKeys, emptyRprm])
  · intro inputs
    refine ⟨runReqs_ids_nodup mgr inputs, ?_⟩
    intro hall
    rw [filterMap_okId_length _ hall, runReqs_results_length]

/-- Claim C4, witness: the uniqueness theorem applied to the
two-resource manager, on a concrete operation run and a concrete fully
successful two-request sequence. -/
theorem rprm_ids_unique_wit :
    (tableKeys (rrun mgrTwo emptyRprm [ROp.req 0 [], ROp.req 1 [],
      ROp.rel 0, ROp.req 0 []])).Nodup ∧
    ((runReqs mgrTwo emptyRprm [(0, []), (1, [])]).2.filterMap okId).Nodup ∧
    ((runReqs mgrTwo emptyRprm [(0, []), (1, [])]).2.filterMap okId).length =
      [(0, ([] : List Nat)), (1, [])].length :=
  ⟨(rprm_ids_unique mgrTwo).1 [ROp.req 0 [], ROp.req 1 [], ROp.rel 0, ROp.req 0 []],
   ((rprm_ids_unique mgrTwo).2 [(0, []), (1, [])]).1,
   ((rprm_ids_unique mgrTwo).2 [(0, []), (1, [])]).2 (by decide)⟩

/-- Claim C5: a request whose resource index is out of the manager's
resource-array bounds (`idx >= res_cnt`) returns `-EINVAL`, leaves the
session state (handle table and ordered list) unchanged and invokes no
resource driver. -/
theorem rprm_request_bad_index (mgr : RprmManager) (st : Rprm) (idx : Nat)
    (data : List Nat) (h : mgr.resources.length ≤ idx) :
    rprm_resource_request mgr st idx data = (st, Except.error (-EINVAL), []) := by
  unfold rprm_resource_request
  rw [dif_neg (by omega)]

/-- Claim C5, witness: index 5 is out of bounds for the two-resource
manager; the request fails with `-EINVAL`, changes nothing and makes no
driver call. -/
theorem rprm_request_bad_index_wit :
    mgrTwo.resources.length ≤ 5 ∧
    rprm_resource_request mgrTwo emptyRprm 5 [3] =
      (emptyRprm, Except.error (-EINVAL), []) :=
  ⟨by decide, rprm_request_bad_index mgrTwo emptyRprm 5 [3] (by decide)⟩

/-- Claim C6: an inbound Request-class message (action field reads
`RPRM_REQUEST`) long enough for the message header but too short for
the declared request header gets an acknowledgment with a negative
status (`-EINVAL` on the established channel, `-ENOTCONN` from a
foreign sender) and no payload, and the session state is not mutated;
no driver is invoked. -/
theorem rprm_cb_short_request (mgr : RprmManager) (dst src : Nat) (st : Rprm)
    (bytes : List Nat) (h4 : 4 ≤ bytes.length) (h8 : bytes.length < 8)
    (hact : readU32 bytes 0 = RPRM_REQUEST) :
    rprm_cb mgr dst st bytes src =
      (st, some ⟨RPRM_REQUEST, if dst = src then -EINVAL else -ENOTCONN, none⟩,
        [], []) := by
  have hA : ¬((bytes.length : Int) - 4 < 0) := by omega
  have hB : (bytes.length : Int) - 4 - 4 < 0 := by omega
  by_cases hds : dst = src
  · simp [rprm_cb, hA, hB, hact, hds]
  · simp [rprm_cb, hA, hact, hds]

/-- Claim C6, witness: a 5-byte request message on the established
channel is acked with `-EINVAL` and an empty payload, mutating
nothing. -/
theorem rprm_cb_short_request_wit :
    4 ≤ ([0, 0, 0, 0, 9] : List Nat).length ∧
    ([0, 0, 0, 0, 9] : List Nat).length < 8 ∧
    readU32 [0, 0, 0, 0, 9] 0 = RPRM_REQUEST ∧
    rprm_cb mgrTwo 3 emptyRprm [0, 0, 0, 0, 9] 3 =
      (emptyRprm, some ⟨RPRM_REQUEST, if 3 = 3 then -EINVAL else -ENOTCONN,
        none⟩, [], []) :=
  ⟨by decide, by decide, by decide,
   rprm_cb_short_request mgrTwo 3 3 emptyRprm [0, 0, 0, 0, 9]
     (by decide) (by decide) (by decide)⟩

/-- Claim C7, counterexample: a well-formed Release-class message
(action field reads `RPRM_RELEASE`) arriving from a source endpoint
other than the established one IS acknowledged — the endpoint check
runs before the action dispatch and sends a `-ENOTCONN` ack for every
action — so the server does not "never send any acknowledgment" for
Release-class messages. -/
theorem rprm_cb_release_ack_cex :
    readU32 [1, 0, 0, 0, 0, 0, 0, 0] 0 = RPRM_RELEASE ∧
    (rprm_cb mgrTwo 5 emptyRprm [1, 0, 0, 0, 0, 0, 0, 0] 6).2.1 =
      some ⟨RPRM_RELEASE, -ENOTCONN, none⟩ := by
  refine ⟨by decide, by decide⟩

/-- Claim C7 (amended): for every inbound Release-class message from
the established remote endpoint (`src = rpdev->dst`) the server sends
no acknowledgment, whether the release succeeds, the id is unknown, the
driver release fails, or the message is truncated. -/
theorem rprm_cb_release_no_ack (mgr : RprmManager) (dst : Nat) (st : Rprm)
    (bytes : List Nat) (hact : readU32 bytes 0 = RPRM_RELEASE) :
    (rprm_cb mgr dst st bytes dst).2.1 = none := by
  by_cases hA : (bytes.length : Int) - 4 < 0
  · simp [rprm_cb, hA]
  · by_cases hB : (bytes.length : Int) - 4 - 4 < 0
    · simp [rprm_cb, hA, hB, hact, RPRM_RELEASE, RPRM_REQUEST]
    · simp only [rprm_cb, hA, hB, hact, RPRM_RELEASE, RPRM_REQUEST, if_false,
        reduceIte, ite_false, ite_true]
      rcases hr : rprm_resource_release mgr st (readU32 bytes 4) with ⟨st', r, tr⟩
      simp [hr, hA, hB]

/-- Claim C7, witness: a well-formed Release of the unknown id 7 on the
established channel gets no acknowledgment. -/
theorem rprm_cb_release_no_ack_wit :
    readU32 [1, 0, 0, 0, 7, 0, 0, 0] 0 = RPRM_RELEASE ∧
    (rprm_cb mgrTwo 4 emptyRprm [1, 0, 0, 0, 7, 0, 0, 0] 4).2.1 = none :=
  ⟨by decide,
   rprm_cb_release_no_ack mgrTwo 4 emptyRprm [1, 0, 0, 0, 7, 0, 0, 0] (by decide)⟩

/-- Claim C8: for a well-formed request on the established channel
(message long enough for both headers), the acknowledgment echoes the
request's data bytes verbatim in its body when the operation succeeds
(`memcpy(rack->data, req->data, len)`), and carries no payload at all
when the operation fails (`len = ret ? 0 : len`). -/
theorem rprm_cb_request_echo (mgr : RprmManager) (dst : Nat) (st : Rprm)
    (bytes : List Nat) (h8 : 8 ≤ bytes.length)
    (hact : readU32 bytes 0 = RPRM_REQUEST) :
    (∀ (st' : Rprm) (id : Nat) (tr : List (Nat × List Nat)),
      rprm_resource_request mgr st (readU32 bytes 4) (bytes.drop 8) =
        (st', Except.ok id, tr) →
      rprm_cb mgr dst st bytes dst =
        (st', some ⟨RPRM_REQUEST, 0, some ⟨id, bytes.drop 8⟩⟩, tr, [])) ∧
    (∀ (st' : Rprm) (err : Int) (tr : List (Nat × List Nat)),
      rprm_resource_request mgr st (readU32 bytes 4) (bytes.drop 8) =
        (st', Except.error err, tr) →
      rprm_cb mgr dst st bytes dst =
        (st', some ⟨RPRM_REQUEST, err, none⟩, tr, [])) := by
  have hA : ¬((bytes.length : Int) - 4 < 0) := by omega
  have hB : ¬((bytes.length : Int) - 4 - 4 < 0) := by omega
  constructor
  · intro st' id tr hreq
    simp [rprm_cb, hA, hB, hact, hreq]
  · intro st' err tr hreq
    simp [rprm_cb, hA, hB, hact, hreq]

/-- Claim C8, witness: a request for index 1 with data byte 42 succeeds
and the ack body carries id 0 and exactly `[42]`; a request for the
out-of-range index 9 fails and the ack has status `-EINVAL` and no
body. -/
theorem rprm_cb_request_echo_wit :
    rprm_cb mgrTwo 3 emptyRprm [0, 0, 0, 0, 1, 0, 0, 0, 42] 3 =
      (⟨[⟨1, 11, 0⟩], [(0, ⟨1, 11, 0⟩)]⟩,
        some ⟨RPRM_REQUEST, 0, some ⟨0, [42]⟩⟩, [(1, [42])], []) ∧
    rprm_cb mgrTwo 3 emptyRprm [0, 0, 0, 0, 9, 0, 0, 0, 42] 3 =
      (emptyRprm, some ⟨RPRM_REQUEST, -EINVAL, none⟩, [], []) :=
  ⟨(rprm_cb_request_echo mgrTwo 3 emptyRprm [0, 0, 0, 0, 1, 0, 0, 0, 42]
      (by decide) (by decide)).1 ⟨[⟨1, 11, 0⟩], [(0, ⟨1, 11, 0⟩)]⟩ 0 [(1, [42])] rfl,
   (rprm_cb_request_echo mgrTwo 3 emptyRprm [0, 0, 0, 0, 9, 0, 0, 0, 42]
      (by decide) (by decide)).2 emptyRprm (-EINVAL) [] rfl⟩

/-- Claim C9: unregistering a manager fails with `-EBUSY` and leaves
the whole registry state unchanged whenever the owning module's
reference count is nonzero; with a zero count it succeeds and the
manager is no longer in the table.  In every state reachable from boot,
a live session bound to a manager keeps its owner's count nonzero
(`try_module_get` at probe, `module_put` at teardown), so unregistering
a manager with an active session always fails with `-EBUSY`. -/
theorem rprm_manager_unregister_busy :
    (∀ (g : GState) (mgr : RprmManager), g.refcnt mgr.owner ≠ 0 →
      rprm_manager_unregister g mgr = (g, -EBUSY)) ∧
    (∀ (g : GState) (mgr : RprmManager), g.refcnt mgr.owner = 0 →
      (rprm_manager_unregister g mgr).2 = 0 ∧
      ∀ m ∈ (rprm_manager_unregister g mgr).1.mgr_table, m.name ≠ mgr.name) ∧
    (∀ (ops : List GOp) (mgr : RprmManager), mgr ∈ (grun ops).sessions →
      rprm_manager_unregister (grun ops) mgr = (grun ops, -EBUSY)) := by
  have busy : ∀ (g : GState) (mgr : RprmManager), g.refcnt mgr.owner ≠ 0 →
      rprm_manager_unregister g mgr = (g, -EBUSY) := by
    intro g mgr h
    simp [rprm_manager_unregister, h]
  refine ⟨busy, ?_, ?_⟩
  · intro g mgr h
    constructor
    · simp [rprm_manager_unregister, h]
    · intro m hm
      simp only [rprm_manager_unregister, h, ne_eq, not_true_eq_false,
        if_false, reduceIte] at hm
      rcases List.mem_filter.mp hm with ⟨_, hname⟩
      simpa using hname
  · intro ops mgr hmem
    refine busy (grun ops) mgr ?_
    have hinv := grun_refInv ops mgr.owner
    have hpos : 0 < (grun ops).sessions.countP (fun mg => mg.owner == mgr.owner) :=
      List.countP_pos_iff.mpr ⟨mgr, hmem, by simp⟩
    omega

/-- Test manager with no resources, owned by module 3, for registry
runs. -/
def mgrPlain : RprmManager := ⟨"board-a", 3, []⟩

/-- Claim C9, witness: after registering `board-a` and probing a
channel of that name (one live session), unregistration fails with
`-EBUSY` and changes nothing; on the boot state (count zero) it
succeeds. -/
theorem rprm_manager_unregister_busy_wit :
    rprm_manager_unregister (grun [GOp.reg mgrPlain, GOp.probe "board-a"]) mgrPlain =
      (grun [GOp.reg mgrPlain, GOp.probe "board-a"], -EBUSY) ∧
    (rprm_manager_unregister g0 mgrPlain).2 = 0 := by
  constructor
  · refine rprm_manager_unregister_busy.2.2 [GOp.reg mgrPlain, GOp.probe "board-a"]
      mgrPlain ?_
    have hs : (grun [GOp.reg mgrPlain, GOp.probe "board-a"]).sessions = [mgrPlain] := rfl
    rw [hs]
    exact List.mem_singleton.mpr rfl
  · exact (rprm_manager_unregister_busy.2.1 g0 mgrPlain rfl).1

/-- Claim C10, counterexample: an inbound message from a foreign source
endpoint that is shorter than the base message header gets no reply at
all — the length check runs before the endpoint check and returns
without sending — so not every foreign-endpoint message is answered
with a not-connected acknowledgment. -/
theorem rprm_cb_notconn_cex :
    (5 : Nat) ≠ 6 ∧
    rprm_cb mgrTwo 5 emptyRprm [] 6 = (emptyRprm, none, [], []) := by
  refine ⟨by decide, by decide⟩

/-- Claim C10 (amended): every inbound message that contains the base
message header (at least 4 bytes) and arrives from a source endpoint
other than the established one is answered with a header-only
`-ENOTCONN` acknowledgment echoing the message's action field, with no
request or release processing: the session state is unchanged and no
driver is invoked, regardless of the action kind. -/
theorem rprm_cb_notconn (mgr : RprmManager) (dst src : Nat) (st : Rprm)
    (bytes : List Nat) (h4 : 4 ≤ bytes.length) (hne : dst ≠ src) :
    rprm_cb mgr dst st bytes src =
      (st, some ⟨readU32 bytes 0, -ENOTCONN, none⟩, [], []) := by
  have hA : ¬((bytes.length : Int) - 4 < 0) := by omega
  simp [rprm_cb, hA, hne]

/-- Claim C10, witness: a 4-byte release-action message from endpoint 6
on a channel whose established endpoint is 5 is answered with a
header-only `-ENOTCONN` ack and nothing else happens. -/
theorem rprm_cb_notconn_wit :
    4 ≤ ([1, 0, 0, 0] : List Nat).length ∧ (5 : Nat) ≠ 6 ∧
    rprm_cb mgrTwo 5 emptyRprm [1, 0, 0, 0] 6 =
      (emptyRprm, some ⟨readU32 [1, 0, 0, 0] 0, -ENOTCONN, none⟩, [], []) :=
  ⟨by decide, by decide,
   rprm_cb_notconn mgrTwo 5 6 emptyRprm [1, 0, 0, 0] (by decide) (by decide)⟩
